import Mathlib

/-!
Verification development for the gigaanalysis data module
(src/PhD/giga_dash/gigaanalysis/data.py).

The module wraps a two-column numpy array in a class called Data.  We embed
the relevant parts shallowly:

  * machine floats are modelled by GFloat, a rational number extended with
    the non-finite values nan, +inf and -inf (used where finiteness checks
    matter: construction with strip_sort and strip_nan);
  * the purely numeric operations (arithmetic, interpolation, cutting) are
    modelled over plain rationals, since the claims about them concern
    exact values;
  * numpy arrays are lists; a two-column array is a list of pairs;
  * every Python function that can raise returns an Except value whose
    error constructors record which exception the source raises.

The external collaborator scipy.interpolate.interp1d is modelled per its
contract: piecewise-linear interpolation over the samples, with optional
bounds checking and a pair of fill values (below, above) used for
out-of-range queries when bounds checking is off.
-/

/-- Model of an IEEE double as used by the module: a rational, or one of
the non-finite values produced by measurements (nan, plus or minus
infinity). -/
inductive GFloat where
  | fin (q : ℚ)
  | nan
  | pinf
  | ninf
deriving DecidableEq

/-- Model of np.isfinite on a single value. -/
def GFloat.isfinite : GFloat → Bool
  | .fin _ => true
  | _ => false

/-- Sort key giving the numpy ordering used by argsort: -inf, then finite
values by magnitude, then +inf, then nan (numpy sorts nan last). -/
def GFloat.sortLe : GFloat → GFloat → Bool
  | .ninf, _ => true
  | .fin _, .ninf => false
  | .fin a, .fin b => decide (a ≤ b)
  | .fin _, _ => true
  | .pinf, .ninf => false
  | .pinf, .fin _ => false
  | .pinf, _ => true
  | .nan, .nan => true
  | .nan, _ => false

/-- Insertion into a list sorted by the x (first) component.  Used to model
the argsort-based reordering of rows; numpy's default quicksort gives no
guarantee on the relative order of tied x values, and no claim depends on
it. -/
def insertByX (p : GFloat × GFloat) : List (GFloat × GFloat) → List (GFloat × GFloat)
  | [] => [p]
  | q :: t => if GFloat.sortLe p.1 q.1 then p :: q :: t else q :: insertByX p t

/-- Model of values[np.argsort(values[:, 0]), :], reordering rows by x. -/
def sortByX : List (GFloat × GFloat) → List (GFloat × GFloat)
  | [] => []
  | p :: t => insertByX p (sortByX t)

/-- The exceptions the module can raise.  The Python code raises ValueError,
TypeError, IndexError, AttributeError and NameError; constructors record
the specific raise site (and, where a claim refers to the message content,
the data the message reports). -/
inductive PyErr where
  | shapeSplitValuesNot1D (ndim : ℕ)
  | shapeSplitYNot1D (ndim : ℕ)
  | attributeError
  | shapeValuesNot2D (ndim : ℕ)
  | shapeValuesNotTwoCols (cols : ℕ)
  | mismatchedAxis (op : String)
  | typeCoerce (op : String)
  | shapeOperandDim (op : String)
  | shapeOperandLen (op : String)
  | indexTuple
  | indexType
  | indexDim
  | indexLen
  | indexOutOfRange
  | notCallable
  | nameError (nm : String)
  | rangeYFromX
  | rangeBelowData
  | rangeAboveData
  | rangeMinMax
  | zeroStep
  | emptyArr
  | indexEmptyList
deriving DecidableEq

/-- Model of a numpy array argument as far as the constructor's shape
checks observe it: a 1-D array of values, a (rectangular) 2-D array given
by its rows, or an array of some other rank. -/
inductive NpArr where
  | d1 (xs : List GFloat)
  | d2 (rows : List (List GFloat))
  | dOther (n : ℕ)

/-- Model of the ndim attribute. -/
def NpArr.ndim : NpArr → ℕ
  | .d1 _ => 1
  | .d2 _ => 2
  | .dOther n => n

/-- Model of shape[1] of a rectangular 2-D array. -/
def npShape1 (rows : List (List GFloat)) : ℕ := (rows.headD []).length

/-- Conversion of a rectangular 2-D array to a list of rows of pairs.
For a rectangular array, shape[1] = 2 holds exactly when every row has
length two, in which case the conversion succeeds. -/
def rowsToPairs : List (List GFloat) → Option (List (GFloat × GFloat))
  | [] => some []
  | [a, b] :: t => (rowsToPairs t).map (fun r => (a, b) :: r)
  | _ :: _ => none

/-- The strip_sort constructor argument.  Python accepts False (no
change), the string strip, the string sort, and True (or any other
truthy value), which both strips and sorts. -/
inductive StripSort where
  | off
  | strip
  | sortXs
  | trueBoth

/-- Model of the strip_sort block of Data.__init__.  Note that the strip
branches select rows with np.isfinite(values).any(axis=1): a row is KEPT
when at least one of its two entries is finite (the code uses any, not
all). -/
def applyStripSort : StripSort → List (GFloat × GFloat) → List (GFloat × GFloat)
  | .off, v => v
  | .strip, v => v.filter (fun r => r.1.isfinite || r.2.isfinite)
  | .sortXs, v => sortByX v
  | .trueBoth, v => sortByX (v.filter (fun r => r.1.isfinite || r.2.isfinite))

/-- The Data class over GFloat values, mirroring the attributes set at the
end of Data.__init__: the backing two-column array and the two column
views. -/
structure GData where
  values : List (GFloat × GFloat)
  x : List GFloat
  y : List GFloat
deriving DecidableEq

/-- The attribute assignments of Data.__init__: x is column 0 and y is
column 1 of the backing array. -/
def GData.mk' (v : List (GFloat × GFloat)) : GData :=
  ⟨v, v.map Prod.fst, v.map Prod.snd⟩

/-- Model of Data.__init__ (src/PhD/giga_dash/gigaanalysis/data.py lines
88-135).  Checks run in source order: in split mode, values must be 1-D,
then split_y must be 1-D, then the sizes must agree - but the size
mismatch message interpolates split_y.szie, an attribute that does not
exist, so that branch raises AttributeError, not the intended ValueError.
In non-split mode the value must be 2-D with two columns.  Then the
strip_sort transform is applied.  The copy-construction branch and the
interp_full argument are not needed by any claim and are not modelled. -/
def mkGData (values : NpArr) (split_y : Option NpArr) (ss : StripSort) :
    Except PyErr GData :=
  match split_y with
  | some sy =>
    match values, sy with
    | .d1 xs, .d1 ys =>
      if xs.length ≠ ys.length then .error .attributeError
      else .ok (GData.mk' (applyStripSort ss (xs.zip ys)))
    | .d1 _, _ => .error (.shapeSplitYNot1D sy.ndim)
    | _, _ => .error (.shapeSplitValuesNot1D values.ndim)
  | none =>
    match values with
    | .d2 rows =>
      match rowsToPairs rows with
      | some prs => .ok (GData.mk' (applyStripSort ss prs))
      | none => .error (.shapeValuesNotTwoCols (npShape1 rows))
    | v => .error (.shapeValuesNot2D v.ndim)

/-- Model of Data.strip_nan (lines 520-528): re-constructs from the rows
selected by np.isfinite(self.values).any(axis=1) - again keeping every
row that has at least one finite entry. -/
def GData.strip_nan (g : GData) : GData :=
  GData.mk' (g.values.filter (fun r => r.1.isfinite || r.2.isfinite))

/-- Model of Data.sort (lines 530-538). -/
def GData.sortOp (g : GData) : GData :=
  GData.mk' (sortByX g.values)

/-! ### The Data class over exact (finite) numeric values

The arithmetic, interpolation and cutting claims concern exact numeric
behaviour, so they are embedded over the rationals. -/

/-- The Data class over rational values: the backing two-column array and
the two column views, as set at the end of Data.__init__. -/
structure Data where
  values : List (ℚ × ℚ)
  x : List ℚ
  y : List ℚ
deriving DecidableEq

/-- The attribute assignments of Data.__init__ on an already validated
two-column array. -/
def Data.mkv (v : List (ℚ × ℚ)) : Data :=
  ⟨v, v.map Prod.fst, v.map Prod.snd⟩

/-- Construction through the split mode of Data.__init__ from two columns
of equal length (every internal call site passes columns of equal
length, under which zipping is exact). -/
def Data.ofXY (xs ys : List ℚ) : Data :=
  Data.mkv (xs.zip ys)

/-- Model of np.min on a 1-D array (the junk value 0 stands for the
ValueError numpy raises on an empty array; every theorem that uses it
assumes a non-empty array). -/
def npMinL : List ℚ → ℚ
  | [] => 0
  | a :: t => t.foldl min a

/-- Model of np.max on a 1-D array, with the same convention on empties. -/
def npMaxL : List ℚ → ℚ
  | [] => 0
  | a :: t => t.foldl max a

/-- Model of Data.min_x (lines 439-447). -/
def Data.min_x (d : Data) : ℚ := npMinL d.x

/-- Model of Data.max_x (lines 449-457). -/
def Data.max_x (d : Data) : ℚ := npMaxL d.x

/-- Linear interpolation on the segment from (x0, y0) to (x1, y1). -/
def interpSeg (x0 y0 x1 y1 q : ℚ) : ℚ :=
  y0 + (q - x0) * (y1 - y0) / (x1 - x0)

/-- Piecewise-linear interpolation over a list of samples sorted by x, as
performed by the interp1d collaborator for in-range queries: the query is
evaluated on the first segment whose right endpoint is not below it (the
last segment if none is). -/
def interpPts : List (ℚ × ℚ) → ℚ → ℚ
  | [], _ => 0
  | [(_, y0)], _ => y0
  | (x0, y0) :: (x1, y1) :: rest, q =>
    if q ≤ x1 then interpSeg x0 y0 x1 y1 q
    else interpPts ((x1, y1) :: rest) q

/-- Model of calling interp1d(xs, ys, bounds_error=False, fill_value=(lo, hi))
at one query point: queries below the first sample give lo, queries above
the last sample give hi, in-range queries interpolate. -/
def interpFill (xs ys : List ℚ) (lo hi : ℚ) (q : ℚ) : ℚ :=
  match xs with
  | [] => 0
  | x0 :: _ =>
    if q < x0 then lo
    else if xs.getLastD 0 < q then hi
    else interpPts (xs.zip ys) q

/-- Model of calling interp1d(xs, ys) with default options (bounds_error
true) on a list of query points: raises when a query is outside the
sampled range, else interpolates each query. -/
def interp1dStrict (xs ys : List ℚ) (qs : List ℚ) : Except PyErr (List ℚ) :=
  if ∃ q ∈ qs, q < npMinL xs ∨ npMaxL xs < q then
    .error .rangeYFromX
  else .ok (qs.map (interpPts (xs.zip ys)))

/-! ### Arithmetic protocol -/

/-- Model of the Data branch of Data.__maths_check (lines 176-182): the two
x columns must be element-wise identical, else the ValueError that the
spec calls MismatchedAxisError is raised; on success the other operand's
y column is used. -/
def Data.mathsCheckData (d o : Data) (op : String) : Except PyErr (List ℚ) :=
  if d.x = o.x then .ok o.y else .error (.mismatchedAxis op)

/-- Model of the array branch of Data.__maths_check (lines 183-201) for a
1-D numeric operand: a size-one operand is broadcast against every y value
(realised here by replication), a different length raises, and otherwise
the operand is used elementwise.  The coercion-failure and wrong-rank
branches concern non-numeric or higher-rank operands, which the claims do
not exercise. -/
def Data.mathsCheckArr (d : Data) (o : List ℚ) (op : String) : Except PyErr (List ℚ) :=
  if o.length = 1 then .ok (List.replicate d.x.length (o.headD 0))
  else if o.length ≠ d.x.length then .error (.shapeOperandLen op)
  else .ok o

/-- Model of Data.__add__ (lines 221-224) applied to a Data operand. -/
def Data.addData (d o : Data) : Except PyErr Data :=
  (d.mathsCheckData o "added").map (fun oy => Data.ofXY d.x (d.y.zipWith (· + ·) oy))

/-- Model of Data.__add__ (lines 221-224) applied to a 1-D array operand. -/
def Data.addArr (d : Data) (o : List ℚ) : Except PyErr Data :=
  (d.mathsCheckArr o "added").map (fun oy => Data.ofXY d.x (d.y.zipWith (· + ·) oy))

/-- Model of Data.__abs__ (lines 266-269): abs of the y values, x kept. -/
def Data.absOp (d : Data) : Data :=
  Data.ofXY d.x (d.y.map (fun v => |v|))

/-- Model of Data.__neg__ (lines 271-273).  Its body is
Data(self.x, neg(self.y)), but no function named neg is defined or
imported anywhere in the module (and Python has no such builtin), so the
call raises NameError before any Data is constructed. -/
def Data.negOp (_ : Data) : Except PyErr Data :=
  .error (.nameError "neg")

/-- Model of Data.__pos__ (lines 275-277).  Its body is
Data(self.x, pos(self.y)); the name pos is likewise undefined, so the call
raises NameError. -/
def Data.posOp (_ : Data) : Except PyErr Data :=
  .error (.nameError "pos")

/-- Model of sum_data (lines 692-704).  Note the loop body is
total += data_set.y: it adds the RAW y array of each subsequent container,
so the Data-vs-Data x comparison of __maths_check is never reached; only
the array-length check applies. -/
def sum_data (l : List Data) : Except PyErr Data :=
  match l with
  | [] => .error .indexEmptyList
  | d :: rest => rest.foldlM (fun tot ds => tot.addArr ds.y) d

/-! ### Indexing -/

/-- Model of an index argument: a single integer, a slice with optional
start and stop, a tuple, or a 1-D boolean mask. -/
inductive PyIndex where
  | int (i : ℤ)
  | slice (a b : Option ℤ)
  | tup
  | mask (bs : List Bool)

/-- Model of Data.__index_check (lines 292-328): tuples are rejected,
slices are collective, a single integer is individual (size one), and a
boolean mask must have exactly the container's length. -/
def Data.indexCheck (d : Data) : PyIndex → Except PyErr Bool
  | .tup => .error .indexTuple
  | .slice _ _ => .ok false
  | .int _ => .ok true
  | .mask bs =>
    if bs.length = 1 then .ok true
    else if bs.length ≠ d.x.length then .error .indexLen
    else .ok false

/-- Python index normalisation for a slice bound on a list of length n. -/
def pyNormIdx (n : ℕ) (i : ℤ) : ℕ :=
  (if i < 0 then max (i + n) 0 else min i n).toNat

/-- Python list slicing l[a:b] with default bounds. -/
def pySlice (l : List (ℚ × ℚ)) (a b : Option ℤ) : List (ℚ × ℚ) :=
  let s := pyNormIdx l.length (a.getD 0)
  let e := pyNormIdx l.length (b.getD l.length)
  (l.take e).drop s

/-- Row selection self.values[k] for the collective index forms. For the
individual forms this function is never consulted (see Data.getitem). -/
def Data.select (d : Data) : PyIndex → List (ℚ × ℚ)
  | .slice a b => pySlice d.values a b
  | .mask bs => (d.values.zip bs).filterMap (fun p => if p.2 then some p.1 else none)
  | _ => []

/-- Result of indexing: either a single [x, y] row or a sub-container. -/
inductive GetResult where
  | pair (p : ℚ × ℚ)
  | sub (d : Data)
deriving DecidableEq

/-- Model of Data.__getitem__ (lines 331-340).  For an individual index the
body evaluates self.values(k) - a CALL of the backing numpy array, which
is not callable - so that path raises TypeError instead of returning the
row; collective indices build a new Data from the selected rows. -/
def Data.getitem (d : Data) (k : PyIndex) : Except PyErr GetResult :=
  match d.indexCheck k with
  | .error e => .error e
  | .ok true => .error .notCallable
  | .ok false => .ok (.sub (Data.mkv (d.select k)))

/-! ### Lookup, cutting, resampling -/

/-- Model of Data.y_from_x (lines 469-497).  With bounds checking on, a
query range exceeding the data range raises; the interpolant is built with
bounds_error False and fill_value (self.y.min(), self.y.max()), i.e. the
minimum and maximum of the y COLUMN, and a size-one result is returned as
a scalar. -/
def Data.y_from_x (d : Data) (x_val : List ℚ) (bounds_error : Bool) :
    Except PyErr (ℚ ⊕ List ℚ) :=
  match x_val with
  | [] => if bounds_error then .error .emptyArr else .ok (.inr [])
  | _ :: _ =>
    if bounds_error ∧ (d.max_x < npMaxL x_val ∨ npMinL x_val < d.min_x) then
      .error .rangeYFromX
    else
      let ys := x_val.map (interpFill d.x d.y (npMinL d.y) (npMaxL d.y))
      if ys.length ≠ 1 then .ok (.inr ys) else .ok (.inl (ys.headD 0))

/-- Model of np.searchsorted(xs, v, side='left') on a sorted array: the
number of elements strictly below v. -/
def ssLeft (xs : List ℚ) (v : ℚ) : ℕ := xs.countP (fun u => decide (u < v))

/-- Model of np.searchsorted(xs, v, side='right') on a sorted array: the
number of elements not above v. -/
def ssRight (xs : List ℚ) (v : ℚ) : ℕ := xs.countP (fun u => decide (u ≤ v))

/-- Model of Data.x_cut (lines 499-518): raises when x_min exceeds x_max,
else rebuilds from the slice of rows between the two searchsorted
positions. -/
def Data.x_cut (d : Data) (x_min x_max : ℚ) : Except PyErr Data :=
  if x_min > x_max then .error .rangeMinMax
  else .ok (Data.mkv
    ((d.values.drop (ssLeft d.x x_min)).take (ssRight d.x x_max - ssLeft d.x x_min)))

/-- Python's round on an exact value: round half to even, as applied by
int(round(...)) in the source. -/
def pyRound (q : ℚ) : ℤ :=
  if q - Int.floor q < 1/2 then Int.floor q
  else if (1 : ℚ)/2 < q - Int.floor q then Int.floor q + 1
  else if Int.floor q % 2 = 0 then Int.floor q else Int.floor q + 1

/-- Model of np.linspace(a, b, n): n evenly spaced points from a to b
inclusive (a single point is a, zero points is empty). -/
def npLinspace (a b : ℚ) (n : ℕ) : List ℚ :=
  if n = 0 then []
  else if n = 1 then [a]
  else (List.range n).map (fun i : ℕ => a + (b - a) * i / (n - 1))

/-- The grid start of interp_full and to_even: x_start = np.ceil(min/step)*step. -/
def evenStart (m step : ℚ) : ℚ := (Int.ceil (m / step) : ℚ) * step

/-- The grid stop of interp_full and to_even: x_stop = np.floor(max/step)*step. -/
def evenStop (m step : ℚ) : ℚ := (Int.floor (m / step) : ℚ) * step

/-- The grid point count of interp_full and to_even:
int(round((x_stop - x_start)/step)) + 1. -/
def evenCount (m M step : ℚ) : ℕ :=
  (pyRound ((evenStop M step - evenStart m step) / step) + 1).toNat

/-- The x grid of interp_full and to_even:
np.linspace(x_start, x_stop, count). -/
def evenGrid (m M step : ℚ) : List ℚ :=
  npLinspace (evenStart m step) (evenStop M step) (evenCount m M step)

/-- Model of Data.interp_full (lines 597-612) at its default interpolation
options: the grid runs from ceil(min/step)*step to floor(max/step)*step
with int(round((stop-start)/step))+1 points, and y is interpolated there
by interp1d with default (strict) bounds. -/
def Data.interp_full (d : Data) (step : ℚ) : Except PyErr Data :=
  (interp1dStrict d.x d.y (evenGrid (npMinL d.x) (npMaxL d.x) step)).map
    (fun yv => Data.ofXY (evenGrid (npMinL d.x) (npMaxL d.x) step) yv)

/-- Model of Data.to_even (lines 630-645), whose body repeats the
computation of interp_full and then reinitialises the object from the
resulting columns; the resulting state is the resulting container. -/
def Data.to_even (d : Data) (step : ℚ) : Except PyErr Data :=
  (interp1dStrict d.x d.y (evenGrid (npMinL d.x) (npMaxL d.x) step)).map
    (fun yv => Data.ofXY (evenGrid (npMinL d.x) (npMaxL d.x) step) yv)

/-- Model of np.arange(a, b, s) for a nonzero step: ceil((b-a)/s) points
starting at a and advancing by s. -/
def npArange (a b s : ℚ) : List ℚ :=
  (List.range (Int.ceil ((b - a) / s)).toNat).map (fun i => a + i * s)

/-- Model of Data.interp_range (lines 540-570).  The two range checks run
first; the keyword options the caller supplies are accepted but NEVER
forwarded: interp1d is always called with bounds_error False and
fill_value (self.y.min(), self.y.max()).  A zero step makes np.arange
raise. -/
def Data.interp_range (d : Data) (min_x max_x step_size : ℚ)
    (kwargs : List (String × String)) : Except PyErr Data :=
  if npMinL d.x > min_x then .error .rangeBelowData
  else if npMaxL d.x < max_x then .error .rangeAboveData
  else if step_size = 0 then .error .zeroStep
  else
    let xv := npArange min_x max_x step_size
    .ok (Data.ofXY xv (xv.map (interpFill d.x d.y (npMinL d.y) (npMaxL d.y))))

/-- Model of Data.to_range (lines 572-594), whose body repeats the
computation of interp_range (the keyword options are likewise ignored)
and reinitialises the object from the result. -/
def Data.to_range (d : Data) (min_x max_x step_size : ℚ)
    (kwargs : List (String × String)) : Except PyErr Data :=
  if npMinL d.x > min_x then .error .rangeBelowData
  else if npMaxL d.x < max_x then .error .rangeAboveData
  else if step_size = 0 then .error .zeroStep
  else
    let xv := npArange min_x max_x step_size
    .ok (Data.ofXY xv (xv.map (interpFill d.x d.y (npMinL d.y) (npMaxL d.y))))

/-! ### Setters -/

/-- Model of Data.set_x (lines 352-369) for an integer index and a scalar
value: the index check passes (size one), the assignment normalises a
negative index and raises IndexError when out of range, and the object is
reinitialised from the updated x column and the existing y column; the
reinitialisation re-runs the split-mode size check of the constructor
(whose failure branch is the AttributeError of the szie typo). -/
def Data.set_x (d : Data) (i : ℤ) (v : ℚ) : Except PyErr Data :=
  let n : ℤ := d.x.length
  let j : ℤ := if i < 0 then i + n else i
  if j < 0 ∨ n ≤ j then .error .indexOutOfRange
  else if d.x.length ≠ d.y.length then .error .attributeError
  else .ok (Data.ofXY (d.x.set j.toNat v) d.y)

/-- Model of Data.set_y (lines 371-388) for an integer index and a scalar
value, symmetric to set_x. -/
def Data.set_y (d : Data) (i : ℤ) (v : ℚ) : Except PyErr Data :=
  let n : ℤ := d.y.length
  let j : ℤ := if i < 0 then i + n else i
  if j < 0 ∨ n ≤ j then .error .indexOutOfRange
  else if d.x.length ≠ d.y.length then .error .attributeError
  else .ok (Data.ofXY d.x (d.y.set j.toNat v))

/-! ### The container invariant -/

/-- The invariant the spec states for every observable container: x and y
have equal length, and they are column 0 and column 1 of the same
two-column backing array. -/
def DataWF (d : Data) : Prop :=
  d.x = d.values.map Prod.fst ∧ d.y = d.values.map Prod.snd ∧
    d.x.length = d.y.length

/-- The invariant for the GFloat-valued container. -/
def GDataWF (g : GData) : Prop :=
  g.x = g.values.map Prod.fst ∧ g.y = g.values.map Prod.snd ∧
    g.x.length = g.y.length

/-- The ways a rational-valued container can be produced by one public
operation of the module: arithmetic, cutting, resampling, setters, or
collective indexing. -/
def StepResultQ (d : Data) : Prop :=
  (∃ a o, Data.addData a o = .ok d) ∨
  (∃ a o, Data.addArr a o = .ok d) ∨
  (∃ a, Data.absOp a = d) ∨
  (∃ a u v, Data.x_cut a u v = .ok d) ∨
  (∃ a s, Data.interp_full a s = .ok d) ∨
  (∃ a s, Data.to_even a s = .ok d) ∨
  (∃ a u v s k, Data.interp_range a u v s k = .ok d) ∨
  (∃ a u v s k, Data.to_range a u v s k = .ok d) ∨
  (∃ a i v, Data.set_x a i v = .ok d) ∨
  (∃ a i v, Data.set_y a i v = .ok d) ∨
  (∃ a k, Data.getitem a k = .ok (.sub d))

/-- The ways a GFloat-valued container can be produced: construction,
stripping or sorting. -/
def StepResultG (g : GData) : Prop :=
  (∃ v sy ss, mkGData v sy ss = .ok g) ∨
  (∃ a, GData.strip_nan a = g) ∨
  (∃ a, GData.sortOp a = g)

/-! ### Helper lemmas on folds, minima and maxima -/

theorem foldl_min_le_init (l : List ℚ) (a : ℚ) : l.foldl min a ≤ a := by
  induction l generalizing a with
  | nil => simp
  | cons b t ih =>
    exact le_trans (ih (min a b)) (min_le_left a b)

theorem foldl_min_le_mem (l : List ℚ) (a x : ℚ) (hx : x ∈ l) : l.foldl min a ≤ x := by
  induction l generalizing a with
  | nil => cases hx
  | cons b t ih =>
    rcases List.mem_cons.mp hx with h | h
    · subst h
      exact le_trans (foldl_min_le_init t (min a x)) (min_le_right a x)
    · exact ih (min a b) h

theorem init_le_foldl_max (l : List ℚ) (a : ℚ) : a ≤ l.foldl max a := by
  induction l generalizing a with
  | nil => simp
  | cons b t ih =>
    exact le_trans (le_max_left a b) (ih (max a b))

theorem mem_le_foldl_max (l : List ℚ) (a x : ℚ) (hx : x ∈ l) : x ≤ l.foldl max a := by
  induction l generalizing a with
  | nil => cases hx
  | cons b t ih =>
    rcases List.mem_cons.mp hx with h | h
    · subst h
      exact le_trans (le_max_right a x) (init_le_foldl_max t (max a x))
    · exact ih (max a b) h

theorem npMinL_le_mem {l : List ℚ} {x : ℚ} (hx : x ∈ l) : npMinL l ≤ x := by
  cases l with
  | nil => cases hx
  | cons a t =>
    rcases List.mem_cons.mp hx with h | h
    · subst h; exact foldl_min_le_init t x
    · exact foldl_min_le_mem t a x h

theorem mem_le_npMaxL {l : List ℚ} {x : ℚ} (hx : x ∈ l) : x ≤ npMaxL l := by
  cases l with
  | nil => cases hx
  | cons a t =>
    rcases List.mem_cons.mp hx with h | h
    · subst h; exact init_le_foldl_max t x
    · exact mem_le_foldl_max t a x h

theorem getLastD_mem : ∀ (l : List ℚ) (e : ℚ), l ≠ [] → l.getLastD e ∈ l
  | [], _, h => absurd rfl h
  | [a], _, _ => by simp
  | a :: b :: t, e, _ => by
    have h2 := getLastD_mem (b :: t) a (by simp)
    rw [List.getLastD_cons]
    exact List.mem_cons_of_mem a h2

/-! ### Claim C1 -/

/-- Claim C1, counterexample: two containers of equal row count whose x
columns differ element-wise are passed to sum_data, and instead of raising
MismatchedAxisError, sum_data silently returns the container with the
first operand's x and the elementwise sum of the y columns - no error of
any kind is raised. -/
theorem c1_counterexample :
    sum_data [Data.ofXY [0, 1] [1, 1], Data.ofXY [0, 2] [3, 4]]
      = .ok (Data.ofXY [0, 1] [4, 5])
    ∧ (Data.ofXY [0, 1] [1, 1]).x ≠ (Data.ofXY [0, 2] [3, 4]).x
    ∧ (Data.ofXY [0, 1] [1, 1]).x.length = (Data.ofXY [0, 2] [3, 4]).x.length
    ∧ ∀ e : PyErr, sum_data [Data.ofXY [0, 1] [1, 1], Data.ofXY [0, 2] [3, 4]]
        ≠ .error e := by
  have h : sum_data [Data.ofXY [0, 1] [1, 1], Data.ofXY [0, 2] [3, 4]]
      = .ok (Data.ofXY [0, 1] [4, 5]) := by
    norm_num [sum_data, Data.ofXY, Data.mkv, Data.addArr, Data.mathsCheckArr,
      List.foldlM, Except.map]
  refine ⟨h, ?_, by norm_num [Data.ofXY, Data.mkv], fun e => by rw [h]; simp⟩
  norm_num [Data.ofXY, Data.mkv]

/-! ### Claim C2 -/

/-- Claim C2, code evaluation at the failing input: strip_nan keeps the
row (1, nan) because np.isfinite(values).any(axis=1) is true for it (the
x entry is finite), removing only the row whose entries are BOTH
non-finite; the strip branch of the constructor selects rows the same
way; hence the result of strip_nan can still contain a non-finite entry,
contradicting the claim that every surviving row is fully finite. -/
theorem c2_strip_eval :
    GData.strip_nan (GData.mk' [(.fin 1, .nan), (.nan, .nan), (.fin 2, .fin 3)])
      = GData.mk' [(.fin 1, .nan), (.fin 2, .fin 3)]
    ∧ applyStripSort .strip [(.fin 1, .nan), (.nan, .pinf)] = [(.fin 1, .nan)]
    ∧ ¬ ((GData.mk' [(.fin 1, .nan)]).strip_nan).values.all
        (fun r => r.1.isfinite && r.2.isfinite) = true := by
  refine ⟨rfl, rfl, ?_⟩
  simp [GData.strip_nan, GData.mk', GFloat.isfinite]

/-! ### Claim C4 -/

/-- Claim C4, code evaluation at the failing input: indexing a container
with the in-range integer 0 raises TypeError, because __getitem__
evaluates self.values(0) - a call of the (non-callable) backing array -
rather than self.values[0]; slice access and tuple rejection behave as
the claim says. -/
theorem c4_getitem_eval :
    Data.getitem (Data.mkv [(1, 2), (3, 4)]) (.int 0) = .error .notCallable
    ∧ Data.getitem (Data.mkv [(1, 2), (3, 4)]) (.slice (some 0) (some 1))
      = .ok (.sub (Data.mkv [(1, 2)]))
    ∧ Data.getitem (Data.mkv [(1, 2), (3, 4)]) .tup = .error .indexTuple
    ∧ ∀ (d : Data) (i : ℤ) (p : ℚ × ℚ), d.getitem (.int i) ≠ .ok (.pair p) := by
  refine ⟨rfl, rfl, rfl, fun d i p => ?_⟩
  simp [Data.getitem, Data.indexCheck]

/-! ### Claim C5 -/

/-- Claim C5, code evaluation at the failing input: negation and the unary
positive raise NameError on every container because __neg__ and __pos__
call the undefined names neg and pos; only absolute value works, returning
a new container with x unchanged and the elementwise absolute y. -/
theorem c5_unary_eval :
    Data.negOp (Data.ofXY [0, 1] [2, -3]) = .error (.nameError "neg")
    ∧ Data.posOp (Data.ofXY [0, 1] [2, -3]) = .error (.nameError "pos")
    ∧ Data.absOp (Data.ofXY [0, 1] [2, -3]) = Data.ofXY [0, 1] [2, 3]
    ∧ ∀ (d r : Data), Data.negOp d ≠ .ok r ∧ Data.posOp d ≠ .ok r := by
  refine ⟨rfl, rfl, ?_, fun d r => by simp [Data.negOp, Data.posOp]⟩
  norm_num [Data.absOp, Data.ofXY, Data.mkv]

/-! ### Claim C6 -/

/-- Claim C6, code evaluation at the failing input: in split mode, two 1-D
inputs of unequal length raise AttributeError, not the ShapeError the
claim describes, because the error message interpolates split_y.szie, an
attribute that does not exist; the not-1-D branches do raise the shape
error describing the offending array. -/
theorem c6_split_eval :
    mkGData (.d1 [.fin 1, .fin 2, .fin 3]) (some (.d1 [.fin 4, .fin 5])) .off
      = .error .attributeError
    ∧ mkGData (.d2 [[.fin 1, .fin 2]]) (some (.d1 [.fin 4])) .off
      = .error (.shapeSplitValuesNot1D 2)
    ∧ mkGData (.d1 [.fin 1]) (some (.d2 [[.fin 4, .fin 5]])) .off
      = .error (.shapeSplitYNot1D 2)
    ∧ ∀ (xs ys : List GFloat) (ss : StripSort) (n m : ℕ),
        mkGData (.d1 xs) (some (.d1 ys)) ss ≠ .error (.shapeValuesNotTwoCols n)
        ∧ mkGData (.d1 xs) (some (.d1 ys)) ss ≠ .error (.shapeSplitValuesNot1D m) := by
  refine ⟨rfl, rfl, rfl, fun xs ys ss n m => ?_⟩
  constructor <;>
    · simp only [mkGData]
      split <;> simp

/-- An array operand can only fail the arithmetic check with the length
error: the Data-vs-Data mismatched-axis branch is unreachable for raw
arrays. -/
theorem except_error_bind {α β : Type} (e : PyErr) (f : α → Except PyErr β) :
    (Except.error e >>= f) = Except.error e := rfl

theorem except_ok_bind {α β : Type} (a : α) (f : α → Except PyErr β) :
    (Except.ok a >>= f) = f a := rfl

theorem except_pure_eq {α : Type} (a : α) : (pure a : Except PyErr α) = Except.ok a := rfl

theorem addArr_error_eq {d : Data} {o : List ℚ} {e : PyErr}
    (h : d.addArr o = .error e) : e = .shapeOperandLen "added" := by
  unfold Data.addArr Data.mathsCheckArr at h
  split at h
  · simp [Except.map] at h
  · split at h
    · simp [Except.map] at h
      exact h.symm
    · simp [Except.map] at h

/-- Claim C1, amended: sum_data checks only that each subsequent
container's y column has the first container's row count (adding raw y
arrays), so for two containers of equal row count it returns the
elementwise y sum over the first container's x REGARDLESS of whether the
x columns agree, and no call of sum_data ever raises the mismatched-axis
error. -/
theorem c1_sum_data_amended (a b : Data) (hlen : b.y.length = a.x.length) :
    sum_data [a, b] = .ok (Data.ofXY a.x (a.y.zipWith (· + ·) b.y))
    ∧ ∀ (l : List Data) (s : String), sum_data l ≠ .error (.mismatchedAxis s) := by
  constructor
  · by_cases hb1 : b.y.length = 1
    · have ha1 : a.x.length = 1 := hlen ▸ hb1
      obtain ⟨v, hv⟩ := List.length_eq_one.mp hb1
      simp [sum_data, Data.addArr, Data.mathsCheckArr, hb1, ha1, hv, Except.map,
        List.replicate]
    · have hne : ¬ a.x.length = 1 := fun h => hb1 (hlen.trans h)
      simp [sum_data, Data.addArr, Data.mathsCheckArr, hb1, hlen, hne, Except.map]
  · intro l s
    cases l with
    | nil => simp [sum_data]
    | cons d rest =>
      show rest.foldlM (fun tot ds => tot.addArr ds.y) d ≠ .error (.mismatchedAxis s)
      induction rest generalizing d with
      | nil => simp [List.foldlM, except_pure_eq]
      | cons d2 t ih =>
        rw [List.foldlM_cons]
        rcases hstep : d.addArr d2.y with e | acc2
        · have he := addArr_error_eq hstep
          subst he
          rw [except_error_bind]
          simp
        · rw [except_ok_bind]
          exact ih acc2

/-- Claim C1 witness: a concrete instance of the amended statement. -/
theorem c1_witness :
    sum_data [Data.ofXY [0, 1] [2, 3], Data.ofXY [5, 6] [10, 20]]
      = .ok (Data.ofXY (Data.ofXY [0, 1] [2, 3]).x
          ((Data.ofXY [0, 1] [2, 3]).y.zipWith (· + ·)
            (Data.ofXY [5, 6] [10, 20]).y)) :=
  (c1_sum_data_amended (Data.ofXY [0, 1] [2, 3]) (Data.ofXY [5, 6] [10, 20])
    (by norm_num [Data.ofXY, Data.mkv])).1

/-! ### Claim C3 -/

/-- Claim C3, counterexample: for the container with x = [0, 1] and
y = [5, 2] (x ascending), a query below the range with bounds checking
disabled returns 2, the MINIMUM of the y column, not 5, the y sample at
the smallest x - so out-of-range queries are not clamped to the nearest
edge y-value. -/
theorem c3_counterexample :
    (Data.ofXY [0, 1] [5, 2]).y_from_x [-1] false = .ok (.inl 2)
    ∧ (Data.ofXY [0, 1] [5, 2]).y.headD 0 = 5
    ∧ (Data.ofXY [0, 1] [5, 2]).y_from_x [-1] false ≠ .ok (.inl 5) := by
  refine ⟨rfl, by norm_num [Data.ofXY, Data.mkv], ?_⟩
  rw [show (Data.ofXY [0, 1] [5, 2]).y_from_x [-1] false = .ok (.inl 2) from rfl]
  simp only [ne_eq, Except.ok.injEq, Sum.inl.injEq]
  norm_num

/-- Claim C3, amended: for a non-empty container, y_from_x with bounds
checking on raises the range error as soon as some query is outside
[min_x, max_x]; with bounds checking off, a query below min_x returns the
MINIMUM of the y column and a query above max_x returns the MAXIMUM of
the y column (the fill values the code passes to the interpolator), a
single query returns a scalar and two or more queries return an array. -/
theorem c3_y_from_x_amended (d : Data) (hx : d.x ≠ []) :
    (∀ qs : List ℚ, qs ≠ [] → (∃ q ∈ qs, q < d.min_x ∨ d.max_x < q) →
        d.y_from_x qs true = .error .rangeYFromX)
    ∧ (∀ q : ℚ, q < d.min_x → d.y_from_x [q] false = .ok (.inl (npMinL d.y)))
    ∧ (∀ q : ℚ, d.max_x < q → d.y_from_x [q] false = .ok (.inl (npMaxL d.y)))
    ∧ (∀ q : ℚ, d.y_from_x [q] false
        = .ok (.inl (interpFill d.x d.y (npMinL d.y) (npMaxL d.y) q)))
    ∧ (∀ qs : List ℚ, 2 ≤ qs.length → d.y_from_x qs false
        = .ok (.inr (qs.map (interpFill d.x d.y (npMinL d.y) (npMaxL d.y))))) := by
  have h4 : ∀ q : ℚ, d.y_from_x [q] false
      = .ok (.inl (interpFill d.x d.y (npMinL d.y) (npMaxL d.y) q)) := by
    intro q
    simp [Data.y_from_x]
  refine ⟨?_, ?_, ?_, h4, ?_⟩
  · intro qs hne hex
    obtain ⟨q, hqmem, hq⟩ := hex
    cases qs with
    | nil => exact absurd rfl hne
    | cons q0 qr =>
      rw [Data.y_from_x, if_pos]
      refine ⟨rfl, ?_⟩
      rcases hq with hlow | hhigh
      · exact Or.inr (lt_of_le_of_lt (npMinL_le_mem hqmem) hlow)
      · exact Or.inl (lt_of_lt_of_le hhigh (mem_le_npMaxL hqmem))
  · intro q hq
    rw [h4 q]
    cases hdx : d.x with
    | nil => exact absurd hdx hx
    | cons x0 xr =>
      have hx0 : d.min_x ≤ x0 := by
        rw [Data.min_x, hdx]
        exact npMinL_le_mem (List.mem_cons_self x0 xr)
      rw [interpFill]
      rw [if_pos (lt_of_lt_of_le hq hx0)]
  · intro q hq
    rw [h4 q]
    cases hdx : d.x with
    | nil => exact absurd hdx hx
    | cons x0 xr =>
      have hx0 : x0 ≤ d.max_x := by
        rw [Data.max_x, hdx]
        exact mem_le_npMaxL (List.mem_cons_self x0 xr)
      have hlast : (x0 :: xr).getLastD 0 < q := by
        refine lt_of_le_of_lt ?_ hq
        rw [Data.max_x, hdx]
        exact mem_le_npMaxL (getLastD_mem (x0 :: xr) 0 (by simp))
      rw [interpFill]
      rw [if_neg (not_lt.mpr (le_of_lt (lt_of_le_of_lt hx0 hq)))]
      rw [if_pos hlast]
  · intro qs hlen
    cases qs with
    | nil => simp at hlen
    | cons q0 qr =>
      have hlen2 : ((q0 :: qr).map
          (interpFill d.x d.y (npMinL d.y) (npMaxL d.y))).length ≠ 1 := by
        simp only [List.length_map, List.length_cons]
        simp only [List.length_cons] at hlen
        omega
      simp only [Data.y_from_x]
      rw [if_neg (by simp), if_pos hlen2]

/-- Claim C3 witness: a concrete instance of the amended statement. -/
theorem c3_witness :
    (Data.ofXY [0, 1, 2] [5, 7, 9]).y_from_x [10] true = .error .rangeYFromX :=
  (c3_y_from_x_amended (Data.ofXY [0, 1, 2] [5, 7, 9])
      (by simp [Data.ofXY, Data.mkv])).1 [10] (by simp)
    ⟨10, by simp, Or.inr (by norm_num [Data.ofXY, Data.mkv, Data.max_x, npMaxL,
      List.foldl, max_def])⟩

/-! ### Claim C8 -/

/-- On a list of rows sorted by ascending x, the slice between the left
insertion point of a and the right insertion point of b is exactly the
rows whose x lies in [a, b]. -/
theorem slice_filter_sorted (a b : ℚ) (hab : a ≤ b) :
    ∀ (l : List (ℚ × ℚ)), l.Pairwise (fun p q => p.1 ≤ q.1) →
      (l.drop (l.countP (fun p => decide (p.1 < a)))).take
          (l.countP (fun p => decide (p.1 ≤ b)) - l.countP (fun p => decide (p.1 < a)))
        = l.filter (fun p => decide (a ≤ p.1) && decide (p.1 ≤ b)) := by
  intro l
  induction l with
  | nil => simp
  | cons p t ih =>
    intro hpw
    obtain ⟨hp, ht⟩ := List.pairwise_cons.mp hpw
    by_cases hlt : p.1 < a
    · rw [List.countP_cons_of_pos (fun r : ℚ × ℚ => decide (r.1 < a)) _ (by simpa using hlt),
        List.countP_cons_of_pos (fun r : ℚ × ℚ => decide (r.1 ≤ b)) _
          (by simp [le_of_lt (lt_of_lt_of_le hlt hab)]),
        List.filter_cons_of_neg (by simp [not_le.mpr hlt])]
      rw [Nat.add_sub_add_right, List.drop_succ_cons]
      exact ih ht
    · push_neg at hlt
      have hc0 : t.countP (fun r : ℚ × ℚ => decide (r.1 < a)) = 0 :=
        List.countP_eq_zero.mpr
          (fun q hq => by simp [not_lt.mpr (le_trans hlt (hp q hq))])
      have hc0' : (p :: t).countP (fun r : ℚ × ℚ => decide (r.1 < a)) = 0 := by
        rw [List.countP_cons_of_neg (fun r : ℚ × ℚ => decide (r.1 < a)) _
          (by simp [not_lt.mpr hlt])]
        exact hc0
      rw [hc0']
      simp only [List.drop_zero, Nat.sub_zero]
      by_cases hpb : p.1 ≤ b
      · rw [List.countP_cons_of_pos (fun r : ℚ × ℚ => decide (r.1 ≤ b)) _ (by simpa using hpb),
          List.take_succ_cons,
          List.filter_cons_of_pos (by simp [hlt, hpb])]
        have h2 := ih ht
        rw [hc0] at h2
        simp only [List.drop_zero, Nat.sub_zero] at h2
        rw [h2]
      · have hbt : t.countP (fun r : ℚ × ℚ => decide (r.1 ≤ b)) = 0 :=
          List.countP_eq_zero.mpr
            (fun q hq => by
              simp [not_le.mpr (lt_of_lt_of_le (not_le.mp hpb) (hp q hq))])
        rw [List.countP_cons_of_neg (fun r : ℚ × ℚ => decide (r.1 ≤ b)) _ (by simpa using hpb),
          hbt]
        rw [List.take_zero, List.filter_cons_of_neg (by simp [hpb])]
        exact (List.filter_eq_nil_iff.mpr
          (fun q hq => by
            simp [not_le.mpr (lt_of_lt_of_le (not_le.mp hpb) (hp q hq))])).symm

/-- Claim C8: on a container whose x column is ascending, x_cut raises the
range error when the requested minimum exceeds the requested maximum, and
otherwise returns exactly the rows whose x lies in [a, b]; when [a, b]
covers every row, all rows are returned. -/
theorem c8_x_cut (d : Data) (a b : ℚ)
    (hxv : d.x = d.values.map Prod.fst)
    (hsort : d.x.Pairwise (· ≤ ·)) :
    (a > b → d.x_cut a b = .error .rangeMinMax)
    ∧ (a ≤ b → d.x_cut a b
        = .ok (Data.mkv (d.values.filter
            (fun p => decide (a ≤ p.1) && decide (p.1 ≤ b)))))
    ∧ (a ≤ b → (∀ p ∈ d.values, a ≤ p.1 ∧ p.1 ≤ b) →
        d.x_cut a b = .ok (Data.mkv d.values)) := by
  have hs : d.values.Pairwise (fun p q => p.1 ≤ q.1) := by
    rw [hxv] at hsort
    exact List.pairwise_map.mp hsort
  have hpart2 : ∀ hab : a ≤ b, d.x_cut a b
      = .ok (Data.mkv (d.values.filter
          (fun p => decide (a ≤ p.1) && decide (p.1 ≤ b)))) := by
    intro hab
    rw [Data.x_cut, if_neg (not_lt.mpr hab)]
    have hl : ssLeft d.x a = d.values.countP (fun p => decide (p.1 < a)) := by
      rw [ssLeft, hxv, List.countP_map]
      rfl
    have hr : ssRight d.x b = d.values.countP (fun p => decide (p.1 ≤ b)) := by
      rw [ssRight, hxv, List.countP_map]
      rfl
    rw [hl, hr, slice_filter_sorted a b hab d.values hs]
  refine ⟨fun h => by rw [Data.x_cut, if_pos h], hpart2, fun hab hall => ?_⟩
  rw [hpart2 hab, List.filter_eq_self.mpr]
  intro p hp
  simp [(hall p hp).1, (hall p hp).2]

/-- Claim C8 witness: a concrete instance of the cut. -/
theorem c8_witness :
    (Data.mkv [(0, 5), (1, 6), (2, 7)]).x_cut 1 2
      = .ok (Data.mkv ([((0:ℚ), (5:ℚ)), (1, 6), (2, 7)].filter
          (fun p => decide ((1:ℚ) ≤ p.1) && decide (p.1 ≤ (2:ℚ))))) :=
  (c8_x_cut (Data.mkv [(0, 5), (1, 6), (2, 7)]) 1 2 rfl
      (by norm_num [Data.mkv, List.pairwise_cons])).2.1 (by norm_num)

/-! ### Claim C9 -/

theorem DataWF_mkv (v : List (ℚ × ℚ)) : DataWF (Data.mkv v) :=
  ⟨rfl, rfl, by simp [Data.mkv]⟩

theorem GDataWF_mk' (v : List (GFloat × GFloat)) : GDataWF (GData.mk' v) :=
  ⟨rfl, rfl, by simp [GData.mk']⟩

theorem except_map_ok {α β : Type} {e : Except PyErr α} {f : α → β} {d : β}
    (h : e.map f = .ok d) : ∃ a, e = .ok a ∧ d = f a := by
  cases e with
  | error err => simp [Except.map] at h
  | ok a => exact ⟨a, rfl, by simpa [Except.map] using h.symm⟩

/-- A 2-D value with a row that is not a pair cannot be converted to a
two-column array. -/
theorem rowsToPairs_eq_none {rows : List (List GFloat)}
    (h : ∃ r ∈ rows, r.length ≠ 2) : rowsToPairs rows = none := by
  induction rows with
  | nil =>
    obtain ⟨r, hm, _⟩ := h
    cases hm
  | cons r t ih =>
    obtain ⟨r', hm, hlen⟩ := h
    rcases List.mem_cons.mp hm with he | hmt
    · subst he
      cases r' with
      | nil => rfl
      | cons a r2 =>
        cases r2 with
        | nil => rfl
        | cons b r3 =>
          cases r3 with
          | nil => exact absurd rfl hlen
          | cons c r4 => rfl
    · have hn := ih ⟨r', hmt, hlen⟩
      cases r with
      | nil => rfl
      | cons a r2 =>
        cases r2 with
        | nil => rfl
        | cons b r3 =>
          cases r3 with
          | nil => simp [rowsToPairs, hn]
          | cons c r4 => rfl

/-- Claim C9: every container produced by a successful construction or by
any modelled public operation satisfies the invariant - x and y have the
same length and are column 0 and column 1 of the backing array - and a
2-D construction input whose rows are not pairs raises before any
container is produced. -/
theorem c9_invariant :
    (∀ g : GData, StepResultG g → GDataWF g)
    ∧ (∀ d : Data, StepResultQ d → DataWF d)
    ∧ (∀ (rows : List (List GFloat)) (ss : StripSort),
        (∃ r ∈ rows, r.length ≠ 2) →
        mkGData (.d2 rows) none ss
          = .error (.shapeValuesNotTwoCols (npShape1 rows))) := by
  refine ⟨?_, ?_, ?_⟩
  · intro g hg
    rcases hg with ⟨v, sy, ss, h⟩ | ⟨a2, h⟩ | ⟨a2, h⟩
    · unfold mkGData at h
      repeat' split at h
      all_goals simp at h
      all_goals subst h
      all_goals exact GDataWF_mk' _
    · subst h
      exact GDataWF_mk' _
    · subst h
      exact GDataWF_mk' _
  · intro d hd
    rcases hd with ⟨a, o, h⟩ | ⟨a, o, h⟩ | ⟨a2, h⟩ | ⟨a, u, v, h⟩ | ⟨a, s, h⟩ |
      ⟨a, s, h⟩ | ⟨a, u, v, s, k, h⟩ | ⟨a, u, v, s, k, h⟩ | ⟨a, i, v, h⟩ |
      ⟨a, i, v, h⟩ | ⟨a, k, h⟩
    · obtain ⟨w, _, rfl⟩ := except_map_ok h
      exact DataWF_mkv _
    · obtain ⟨w, _, rfl⟩ := except_map_ok h
      exact DataWF_mkv _
    · subst h
      exact DataWF_mkv _
    · unfold Data.x_cut at h
      repeat' split at h
      all_goals simp at h
      all_goals subst h
      all_goals exact DataWF_mkv _
    · obtain ⟨w, _, rfl⟩ := except_map_ok h
      exact DataWF_mkv _
    · obtain ⟨w, _, rfl⟩ := except_map_ok h
      exact DataWF_mkv _
    · unfold Data.interp_range at h
      dsimp only at h
      repeat' split at h
      all_goals simp at h
      all_goals subst h
      all_goals exact DataWF_mkv _
    · unfold Data.to_range at h
      dsimp only at h
      repeat' split at h
      all_goals simp at h
      all_goals subst h
      all_goals exact DataWF_mkv _
    · unfold Data.set_x at h
      dsimp only at h
      repeat' split at h
      all_goals simp at h
      all_goals subst h
      all_goals exact DataWF_mkv _
    · unfold Data.set_y at h
      dsimp only at h
      repeat' split at h
      all_goals simp at h
      all_goals subst h
      all_goals exact DataWF_mkv _
    · unfold Data.getitem at h
      repeat' split at h
      all_goals simp at h
      all_goals subst h
      all_goals exact DataWF_mkv _
  · intro rows ss hbad
    simp [mkGData, rowsToPairs_eq_none hbad]

/-- Claim C9 witness: concrete containers produced by construction and by
a cut both satisfy the invariant. -/
theorem c9_witness :
    GDataWF (GData.mk' [(.fin 1, .fin 2)]) ∧ DataWF (Data.mkv [(3, 4)]) :=
  ⟨c9_invariant.1 (GData.mk' [(.fin 1, .fin 2)])
      (Or.inl ⟨.d2 [[.fin 1, .fin 2]], none, .off, rfl⟩),
    c9_invariant.2.1 (Data.mkv [(3, 4)])
      (Or.inr (Or.inr (Or.inr (Or.inl ⟨Data.mkv [(3, 4)], 3, 3, rfl⟩))))⟩

/-! ### Claim C10 -/

/-- Claim C10: the range-resample operations accept caller keyword options
but never forward them - two calls differing only in the options are
identical, the in-place variant computes the same container as the
new-container variant, and on the success path the interpolation always
runs with bounds checking off and the fill values fixed to the minimum
and maximum of the y column. -/
theorem c10_range_kwargs :
    (∀ (d : Data) (a b s : ℚ) (k1 k2 : List (String × String)),
        d.interp_range a b s k1 = d.interp_range a b s k2
        ∧ d.to_range a b s k1 = d.to_range a b s k2
        ∧ d.to_range a b s k1 = d.interp_range a b s k2)
    ∧ (∀ (d : Data) (a b s : ℚ) (k : List (String × String)),
        ¬ npMinL d.x > a → ¬ npMaxL d.x < b → s ≠ 0 →
        d.interp_range a b s k
          = .ok (Data.ofXY (npArange a b s)
              ((npArange a b s).map
                (interpFill d.x d.y (npMinL d.y) (npMaxL d.y))))) := by
  refine ⟨fun d a b s k1 k2 => ⟨rfl, rfl, rfl⟩, ?_⟩
  intro d a b s k h1 h2 h3
  rw [Data.interp_range, if_neg h1, if_neg h2, if_neg h3]

/-- Claim C10 witness: a concrete instance of the success path. -/
theorem c10_witness :
    (Data.ofXY [0, 1] [5, 6]).interp_range 0 1 1 [("kind", "cubic")]
      = .ok (Data.ofXY (npArange 0 1 1)
          ((npArange 0 1 1).map
            (interpFill (Data.ofXY [0, 1] [5, 6]).x (Data.ofXY [0, 1] [5, 6]).y
              (npMinL (Data.ofXY [0, 1] [5, 6]).y)
              (npMaxL (Data.ofXY [0, 1] [5, 6]).y)))) :=
  c10_range_kwargs.2 (Data.ofXY [0, 1] [5, 6]) 0 1 1 [("kind", "cubic")]
    (by norm_num [Data.ofXY, Data.mkv, npMinL, List.foldl, min_def])
    (by norm_num [Data.ofXY, Data.mkv, npMaxL, List.foldl, max_def])
    (by norm_num)

/-! ### Claim C7 -/

theorem pyRound_intCast (z : ℤ) : pyRound (z : ℚ) = z := by
  rw [pyRound, Int.floor_intCast]
  norm_num

theorem le_evenStart (m s : ℚ) (hs : 0 < s) : m ≤ evenStart m s := by
  rw [evenStart]
  exact (div_le_iff hs).mp (Int.le_ceil (m / s))

theorem evenStop_le (m s : ℚ) (hs : 0 < s) : evenStop m s ≤ m := by
  rw [evenStop]
  exact (le_div_iff hs).mp (Int.floor_le (m / s))

theorem evenCount_eq (m m2 s : ℚ) (hs0 : s ≠ 0) :
    evenCount m m2 s = (Int.floor (m2 / s) - Int.ceil (m / s) + 1).toNat := by
  rw [evenCount, evenStart, evenStop]
  have h1 : ((Int.floor (m2 / s) : ℚ) * s - (Int.ceil (m / s) : ℚ) * s) / s
      = ((Int.floor (m2 / s) - Int.ceil (m / s) : ℤ) : ℚ) := by
    push_cast
    field_simp
    ring
  rw [h1, pyRound_intCast]

theorem npLinspace_length (a b : ℚ) (n : ℕ) : (npLinspace a b n).length = n := by
  rw [npLinspace]
  split_ifs with h1 h2
  · simp [h1]
  · simp [h2]
  · rw [List.length_map, List.length_range]

theorem mem_npLinspace_bounds (a b : ℚ) (n : ℕ) (hab : a ≤ b) :
    ∀ q ∈ npLinspace a b n, a ≤ q ∧ q ≤ b := by
  intro q hq
  rw [npLinspace] at hq
  split_ifs at hq with h1 h2
  · simp at hq
  · simp at hq
    subst hq
    exact ⟨le_refl _, hab⟩
  · obtain ⟨i, hi, rfl⟩ := List.mem_map.mp hq
    have hi' : i < n := List.mem_range.mp hi
    have hn2 : 2 ≤ n := by omega
    have hn1 : (0:ℚ) < (n:ℚ) - 1 := by
      have h3 : (2:ℚ) ≤ (n:ℚ) := by exact_mod_cast hn2
      linarith
    have hii : (i:ℚ) ≤ (n:ℚ) - 1 := by
      have h3 : (i:ℚ) + 1 ≤ (n:ℚ) := by exact_mod_cast hi'
      linarith
    have hnum : 0 ≤ (b - a) * i / ((n:ℚ) - 1) :=
      div_nonneg (mul_nonneg (sub_nonneg.mpr hab) (Nat.cast_nonneg i)) (le_of_lt hn1)
    have hfrac : (b - a) * i / ((n:ℚ) - 1) ≤ b - a := by
      rw [div_le_iff hn1]
      exact mul_le_mul_of_nonneg_left hii (sub_nonneg.mpr hab)
    constructor
    · linarith
    · linarith

/-- Claim C7: for a non-empty container and a positive step, the even-grid
resample succeeds and returns the container over the grid that runs from
ceil(min/step)*step to floor(max/step)*step with round((stop-start)/step)+1
evenly spaced points, with y linearly interpolated at each grid point; the
in-place variant computes the same result, and the concrete example with
x = [0..4], y = [0,1,4,9,16], step = 2 yields x = [0,2,4], y = [0,4,16]. -/
theorem c7_interp_even (d : Data) (step : ℚ) (hs : 0 < step) (hx : d.x ≠ []) :
    d.interp_full step
      = .ok (Data.ofXY (evenGrid (npMinL d.x) (npMaxL d.x) step)
          ((evenGrid (npMinL d.x) (npMaxL d.x) step).map (interpPts (d.x.zip d.y))))
    ∧ (evenGrid (npMinL d.x) (npMaxL d.x) step).length
        = evenCount (npMinL d.x) (npMaxL d.x) step
    ∧ d.to_even step = d.interp_full step
    ∧ Data.interp_full (Data.ofXY [0, 1, 2, 3, 4] [0, 1, 4, 9, 16]) 2
        = .ok (Data.ofXY [0, 2, 4] [0, 4, 16]) := by
  have hs0 : step ≠ 0 := ne_of_gt hs
  have hstart : npMinL d.x ≤ evenStart (npMinL d.x) step := le_evenStart _ _ hs
  have hstop : evenStop (npMaxL d.x) step ≤ npMaxL d.x := evenStop_le _ _ hs
  have hnotex : ¬ ∃ q ∈ evenGrid (npMinL d.x) (npMaxL d.x) step,
      q < npMinL d.x ∨ npMaxL d.x < q := by
    rintro ⟨q, hqmem, hq⟩
    have hn1 : 1 ≤ evenCount (npMinL d.x) (npMaxL d.x) step := by
      have hlen : 0 < (evenGrid (npMinL d.x) (npMaxL d.x) step).length :=
        List.length_pos.mpr (List.ne_nil_of_mem hqmem)
      rw [evenGrid, npLinspace_length] at hlen
      exact hlen
    have hk : 0 ≤ Int.floor (npMaxL d.x / step) - Int.ceil (npMinL d.x / step) := by
      by_contra hneg
      push_neg at hneg
      have hle : Int.floor (npMaxL d.x / step) - Int.ceil (npMinL d.x / step) + 1 ≤ 0 := by
        omega
      rw [evenCount_eq _ _ _ hs0, Int.toNat_of_nonpos hle] at hn1
      exact absurd hn1 (by norm_num)
    have hss : evenStart (npMinL d.x) step ≤ evenStop (npMaxL d.x) step := by
      rw [evenStart, evenStop]
      have h2 : ((Int.ceil (npMinL d.x / step) : ℤ) : ℚ)
          ≤ ((Int.floor (npMaxL d.x / step) : ℤ) : ℚ) := by
        exact_mod_cast
          (by omega : Int.ceil (npMinL d.x / step) ≤ Int.floor (npMaxL d.x / step))
      exact mul_le_mul_of_nonneg_right h2 (le_of_lt hs)
    have hb := mem_npLinspace_bounds _ _ _ hss q (by rw [evenGrid] at hqmem; exact hqmem)
    rcases hq with h | h
    · exact absurd (le_trans hstart hb.1) (not_le.mpr h)
    · exact absurd (le_trans hb.2 hstop) (not_le.mpr h)
  have hok : interp1dStrict d.x d.y (evenGrid (npMinL d.x) (npMaxL d.x) step)
      = .ok ((evenGrid (npMinL d.x) (npMaxL d.x) step).map (interpPts (d.x.zip d.y))) := by
    rw [interp1dStrict, if_neg hnotex]
  refine ⟨?_, ?_, rfl, ?_⟩
  · rw [Data.interp_full, hok]
    simp [Except.map]
  · rw [evenGrid, npLinspace_length]
  · have hdx : (Data.ofXY [0, 1, 2, 3, 4] [0, 1, 4, 9, 16]).x = [0, 1, 2, 3, 4] := by
      norm_num [Data.ofXY, Data.mkv]
    have hdy : (Data.ofXY [0, 1, 2, 3, 4] [0, 1, 4, 9, 16]).y = [0, 1, 4, 9, 16] := by
      norm_num [Data.ofXY, Data.mkv]
    have hmin : npMinL [(0:ℚ), 1, 2, 3, 4] = 0 := by
      norm_num [npMinL, List.foldl, min_def]
    have hmax : npMaxL [(0:ℚ), 1, 2, 3, 4] = 4 := by
      norm_num [npMaxL, List.foldl, max_def]
    have hgrid : npLinspace 0 4 3 = [0, 2, 4] := by
      norm_num [npLinspace, List.range_succ]
    have hstart2 : evenStart 0 2 = 0 := by norm_num [evenStart]
    have hstop2 : evenStop 4 2 = 4 := by norm_num [evenStop]
    have hcount2 : evenCount 0 4 2 = 3 := by
      rw [evenCount, hstart2, hstop2]
      norm_num [pyRound]
      rfl
    have hgrid2 : evenGrid 0 4 2 = [0, 2, 4] := by
      rw [evenGrid, hstart2, hstop2, hcount2, hgrid]
    have hstrict : interp1dStrict [0, 1, 2, 3, 4] [0, 1, 4, 9, 16] [0, 2, 4]
        = .ok [0, 4, 16] := by
      rw [interp1dStrict, if_neg]
      · norm_num [interpPts, interpSeg]
      · simp only [hmin, hmax]
        norm_num
    simp only [Data.interp_full, hdx, hdy, hmin, hmax, hgrid2, hstrict, Except.map]

/-- Claim C7 witness: a concrete instance of the statement. -/
theorem c7_witness :
    (Data.ofXY [0, 1, 2, 3, 4] [0, 1, 4, 9, 16]).to_even 2
      = (Data.ofXY [0, 1, 2, 3, 4] [0, 1, 4, 9, 16]).interp_full 2 :=
  (c7_interp_even (Data.ofXY [0, 1, 2, 3, 4] [0, 1, 4, 9, 16]) 2 (by norm_num)
    (by simp [Data.ofXY, Data.mkv])).2.2.1
